import Mathlib

/-!
Shallow embedding of the realtime chat subsystem of the task-management
backend: the relational store (channels, members, admins, messages,
huddles, users), the data-access layer of `src/services/task.service.js`
and `src/unnamed/part_010` (huddle store), the socket handlers of
`src/unnamed/part_006`, and the membership/admin REST routes of
`src/unnamed/part_000`.

The relational store is a record of lists of rows; SQL statements are
translated row by row (SELECT ... LIMIT 1 is `List.find?`, WHERE filters
are `List.filter`, UPDATE ... RETURNING is a map over the matching rows
returning the first updated row, ORDER BY is an insertion sort on the
ordering column, LIMIT is `List.take`).  `now()` is an explicit clock
field and `gen_random_uuid()` an explicit counter.  JavaScript falsiness
of strings (empty string is falsy) is modelled explicitly.
-/

namespace TaskChat

/-- A row of the `chat_channels` table, as exposed by `mapChannelRow`
(`isPrivate` and `is_private` always coincide there, so a single field). -/
structure Channel where
  id : String
  key : String
  name : String
  ctype : String
  createdBy : String
  isPrivate : Bool
  createdAt : Nat
deriving DecidableEq

/-- A row of the `chat_messages` table (the columns the chat subsystem
reads and writes). -/
structure Message where
  id : String
  channel_id : String
  user_id : String
  text_html : String
  encrypted_json : Option String
  fallback_text : Option String
  created_at : Nat
  updated_at : Option Nat
  deleted_at : Option Nat
  parent_id : Option String
deriving DecidableEq

/-- A row of the `chat_huddles` table. -/
structure Huddle where
  channel_key : String
  huddle_id : String
  started_by : String
  started_at : Nat
  ended_at : Option Nat
deriving DecidableEq

/-- A row of the `users` table (the columns the chat subsystem joins on). -/
structure User where
  id : String
  username : String
deriving DecidableEq

/-- The relational store shared by every handler.  Membership and admin
join tables are (channelId, userId) pairs; `now` models the SQL `now()`
clock and `nextId` the `gen_random_uuid()` generator. -/
structure DB where
  channels : List Channel
  members : List (String × String)
  admins : List (String × String)
  messages : List Message
  huddles : List Huddle
  users : List User
  now : Nat
  nextId : Nat
deriving DecidableEq

/-- JavaScript coercion of a possibly-absent string (`undefined`/`null`
become the empty string, which is falsy). -/
def jsStr (o : Option String) : String :=
  match o with
  | some s => s
  | none => ""

/-- JavaScript `a || b` on strings: the empty string is falsy. -/
def jsOrS (a b : String) : String :=
  if a = "" then b else a

/-- JavaScript `String.prototype.trim`: strip leading and trailing
whitespace. -/
def jsTrim (s : String) : String :=
  ⟨((s.data.dropWhile Char.isWhitespace).reverse.dropWhile
      Char.isWhitespace).reverse⟩

/-- JavaScript `x || null` on a string field: absent or empty becomes null. -/
def jsNull (o : Option String) : Option String :=
  match o with
  | some s => if s = "" then none else some s
  | none => none

/-- One call of `gen_random_uuid()`. -/
def freshId (db : DB) : String × DB :=
  ("uuid-" ++ toString db.nextId, { db with nextId := db.nextId + 1 })

/-! ### Channel store (`task.service.js`) -/

/-- `getChannelByKey`: SELECT * FROM chat_channels WHERE key = $1 LIMIT 1. -/
def getChannelByKey (db : DB) (key : String) : Option Channel :=
  db.channels.find? (fun c => c.key == key)

/-- `getChannelById`: SELECT * FROM chat_channels WHERE id = $1 LIMIT 1. -/
def getChannelById (db : DB) (id : String) : Option Channel :=
  db.channels.find? (fun c => c.id == id)

/-- Argument record of `getOrCreateChannelByKey`. -/
structure ChannelArgs where
  key : String
  ctype : String
  name : String
  createdBy : String
deriving DecidableEq

/-- `getOrCreateChannelByKey`: return the existing row for the key if any;
otherwise INSERT a new channel with `is_private = false`. -/
def getOrCreateChannelByKey (db : DB) (a : ChannelArgs) : Channel × DB :=
  match getChannelByKey db a.key with
  | some c => (c, db)
  | none =>
    let cid := (freshId db).1
    let db1 := (freshId db).2
    let c : Channel :=
      { id := cid, key := a.key, name := a.name, ctype := a.ctype,
        createdBy := a.createdBy, isPrivate := false, createdAt := db.now }
    (c, { db1 with channels := db1.channels ++ [c] })

/-- `isChannelMember`: SELECT 1 FROM chat_channel_members WHERE channel_id
AND user_id LIMIT 1, as a boolean. -/
def isChannelMember (db : DB) (channelId userId : String) : Bool :=
  db.members.any (fun p => p.1 == channelId && p.2 == userId)

/-- `isChannelAdmin`: SELECT 1 FROM chat_channel_admins WHERE channel_id
AND user_id LIMIT 1, as a boolean. -/
def isChannelAdmin (db : DB) (channelId userId : String) : Bool :=
  db.admins.any (fun p => p.1 == channelId && p.2 == userId)

/-- `ensureChannelMember`: SELECT, return if present, else INSERT. -/
def ensureChannelMember (db : DB) (channelId userId : String) : DB :=
  if isChannelMember db channelId userId then db
  else { db with members := db.members ++ [(channelId, userId)] }

/-- `addChannelMember`: INSERT ... ON CONFLICT DO NOTHING under the
unique (channel_id, user_id) constraint. -/
def addChannelMember (db : DB) (channelId userId : String) : DB :=
  if isChannelMember db channelId userId then db
  else { db with members := db.members ++ [(channelId, userId)] }

/-- `removeChannelMember`: DELETE FROM chat_channel_members WHERE
channel_id AND user_id. -/
def removeChannelMember (db : DB) (channelId userId : String) : DB :=
  { db with members := db.members.filter (fun p => !(p.1 == channelId && p.2 == userId)) }

/-- `addChannelAdmin`: INSERT ... ON CONFLICT DO NOTHING. -/
def addChannelAdmin (db : DB) (channelId userId : String) : DB :=
  if isChannelAdmin db channelId userId then db
  else { db with admins := db.admins ++ [(channelId, userId)] }

/-- `removeChannelAdmin`: DELETE FROM chat_channel_admins WHERE
channel_id AND user_id. -/
def removeChannelAdmin (db : DB) (channelId userId : String) : DB :=
  { db with admins := db.admins.filter (fun p => !(p.1 == channelId && p.2 == userId)) }

/-- `deleteChannel` (service): throws unless the requester is an admin of
the channel; otherwise DELETE FROM chat_channels WHERE id = $1. -/
def deleteChannel (db : DB) (channelId userId : String) : Except String DB :=
  if !(isChannelAdmin db channelId userId) then
    Except.error "Only admins can delete the channel"
  else
    Except.ok { db with channels := db.channels.filter (fun c => !(c.id == channelId)) }

/-! ### Message store (`task.service.js`) -/

/-- Argument record of `createChatMessage` (optional fields arrive as
null from callers that do not set them). -/
structure MessageArgs where
  channelId : String
  userId : String
  textHtml : Option String
  parentId : Option String
  encryptedJson : Option String
  fallbackText : Option String
deriving DecidableEq

/-- `createChatMessage`: INSERT a new message row; `text_html` stores
`textHtml || fallbackText || ""` (JavaScript falsiness). -/
def createChatMessage (db : DB) (a : MessageArgs) : Message × DB :=
  let baseText := jsOrS (jsStr a.textHtml) (jsStr a.fallbackText)
  let mid := (freshId db).1
  let db1 := (freshId db).2
  let m : Message :=
    { id := mid, channel_id := a.channelId, user_id := a.userId,
      text_html := baseText, encrypted_json := a.encryptedJson,
      fallback_text := a.fallbackText, created_at := db.now,
      updated_at := none, deleted_at := none, parent_id := a.parentId }
  (m, { db1 with messages := db1.messages ++ [m] })

/-- A row of the SELECT in `getRecentMessages`: the message columns plus
the joined author `username`. -/
structure MsgRow where
  id : String
  channel_id : String
  user_id : String
  text_html : String
  encrypted_json : Option String
  fallback_text : Option String
  created_at : Nat
  updated_at : Option Nat
  deleted_at : Option Nat
  parent_id : Option String
  username : String
deriving DecidableEq

/-- The joined row for a message and its author's username. -/
def rowOf (m : Message) (uname : String) : MsgRow :=
  { id := m.id, channel_id := m.channel_id, user_id := m.user_id,
    text_html := m.text_html, encrypted_json := m.encrypted_json,
    fallback_text := m.fallback_text, created_at := m.created_at,
    updated_at := m.updated_at, deleted_at := m.deleted_at,
    parent_id := m.parent_id, username := uname }

/-- The inner JOIN of a message with the `users` table on
`u.id = m.user_id`: the row is dropped when the author is absent. -/
def joinRow (db : DB) (m : Message) : Option MsgRow :=
  (db.users.find? (fun u => u.id == m.user_id)).map (fun u => rowOf m u.username)

/-- The WHERE clause of `getRecentMessages`: `m.channel_id = $1` or, when
a distinct key fallback is present, `m.channel_id = $1 OR m.channel_id = $3`. -/
def chanMatch (channelId : String) (key : Option String) (m : Message) : Bool :=
  match key with
  | some k => m.channel_id == channelId || m.channel_id == k
  | none => m.channel_id == channelId

/-- ORDER BY m.created_at ASC on joined rows. -/
def rowLe (a b : MsgRow) : Prop :=
  a.created_at ≤ b.created_at

instance : DecidableRel rowLe :=
  fun a b => Nat.decLe a.created_at b.created_at

instance : IsTotal MsgRow rowLe :=
  ⟨fun a b => Nat.le_total a.created_at b.created_at⟩

instance : IsTrans MsgRow rowLe :=
  ⟨fun _ _ _ hab hbc => Nat.le_trans hab hbc⟩

/-- The key-fallback normalisation of `getRecentMessages`: the fallback
is only kept when truthy and different from the channel id. -/
def resolveKeyFallback (channelId : String) (channelKey : Option String) :
    Option String :=
  match jsNull channelKey with
  | some k => if k = channelId then none else some k
  | none => none

/-- `getRecentMessages`: messages of a channel joined with the author's
username, ORDER BY created_at ASC, LIMIT `limit`.  The key fallback is
only used when non-empty and different from the channel id. -/
def getRecentMessages (db : DB) (channelId : String) (limit : Nat)
    (channelKey : Option String) : List MsgRow :=
  (((db.messages.filter
      (chanMatch channelId (resolveKeyFallback channelId channelKey))).filterMap
      (joinRow db)).insertionSort rowLe).take limit

/-- The WHERE clause shared by `updateChatMessage` and
`softDeleteChatMessage`: id AND user_id AND deleted_at IS NULL. -/
def ownActive (messageId userId : String) (m : Message) : Bool :=
  m.id == messageId && m.user_id == userId && m.deleted_at.isNone

/-- `updateChatMessage`: UPDATE text_html and updated_at on the author's
own non-deleted message; null when no row matched. -/
def updateChatMessage (db : DB) (messageId userId textHtml : String) :
    Option Message × DB :=
  match db.messages.filter (ownActive messageId userId) with
  | [] => (none, db)
  | m :: _ =>
    (some { m with text_html := textHtml, updated_at := some db.now },
     { db with messages := db.messages.map (fun x =>
         if ownActive messageId userId x then
           { x with text_html := textHtml, updated_at := some db.now }
         else x) })

/-- `softDeleteChatMessage`: UPDATE deleted_at on the author's own
non-deleted message; null when no row matched. -/
def softDeleteChatMessage (db : DB) (messageId userId : String) :
    Option Message × DB :=
  match db.messages.filter (ownActive messageId userId) with
  | [] => (none, db)
  | m :: _ =>
    (some { m with deleted_at := some db.now },
     { db with messages := db.messages.map (fun x =>
         if ownActive messageId userId x then
           { x with deleted_at := some db.now }
         else x) })

/-! ### Huddle store (`src/unnamed/part_010`) -/

/-- `createHuddle`: INSERT INTO chat_huddles (channel_key, huddle_id,
started_by); started_at defaults to now() and ended_at to null. -/
def createHuddle (db : DB) (channelKey huddleId startedBy : String) :
    Huddle × DB :=
  let h : Huddle :=
    { channel_key := channelKey, huddle_id := huddleId,
      started_by := startedBy, started_at := db.now, ended_at := none }
  (h, { db with huddles := db.huddles ++ [h] })

/-- ORDER BY started_at DESC on huddle rows. -/
def hudGe (a b : Huddle) : Prop :=
  b.started_at ≤ a.started_at

instance : DecidableRel hudGe :=
  fun a b => Nat.decLe b.started_at a.started_at

/-- The WHERE clause of `getActiveHuddle`: channel_key AND ended_at IS NULL. -/
def activeFor (channelKey : String) (h : Huddle) : Bool :=
  h.channel_key == channelKey && h.ended_at.isNone

/-- `getActiveHuddle`: the active (non-ended) huddle for a channel,
ORDER BY started_at DESC LIMIT 1. -/
def getActiveHuddle (db : DB) (channelKey : String) : Option Huddle :=
  ((db.huddles.filter (activeFor channelKey)).insertionSort hudGe).head?

/-- The WHERE clause of `endHuddle`: channel_key AND huddle_id AND
ended_at IS NULL. -/
def endMatch (channelKey huddleId : String) (h : Huddle) : Bool :=
  h.channel_key == channelKey && h.huddle_id == huddleId && h.ended_at.isNone

/-- `endHuddle`: UPDATE ended_at = NOW() on the active row with exactly
this channel key and huddle id; null when no row matched. -/
def endHuddle (db : DB) (channelKey huddleId : String) :
    Option Huddle × DB :=
  match db.huddles.filter (endMatch channelKey huddleId) with
  | [] => (none, db)
  | h :: _ =>
    (some { h with ended_at := some db.now },
     { db with huddles := db.huddles.map (fun x =>
         if endMatch channelKey huddleId x then { x with ended_at := some db.now }
         else x) })

/-! ### Realtime gateway (`src/unnamed/part_006`) -/

/-- An item of the `chat:history` snapshot payload. -/
structure HistItem where
  id : String
  channelId : String
  userId : String
  username : String
  textHtml : String
  createdAt : Nat
  updatedAt : Option Nat
  deletedAt : Option Nat
deriving DecidableEq

/-- Map a joined row to the client-facing history shape
(`m.username || username` falls back to the joiner's username). -/
def toHistItem (channelKey selfUsername : String) (m : MsgRow) : HistItem :=
  { id := m.id, channelId := channelKey, userId := m.user_id,
    username := jsOrS m.username selfUsername, textHtml := m.text_html,
    createdAt := m.created_at, updatedAt := m.updated_at,
    deletedAt := m.deleted_at }

/-- The `chat:message` broadcast payload (echoes the client `tempId`). -/
structure WireMsg where
  id : String
  tempId : Option String
  channelId : String
  userId : String
  username : String
  textHtml : String
  createdAt : Nat
  updatedAt : Option Nat
  deletedAt : Option Nat
deriving DecidableEq

/-- Where an emitted event is routed. -/
inductive Target
  | toSelf
  | toRoomOthers (room : String)
  | toRoom (room : String)
deriving DecidableEq

/-- Server-to-client events the modelled handlers produce. -/
inductive SEvent
  | joinDenied (error : String)
  | chatError (error : String)
  | history (channelId : String) (messages : List HistItem)
  | systemEvent (etype channelId userId username : String)
  | chatMessage (m : WireMsg)
  | huddleStarted (channelId huddleId byUserId byUsername : String)
  | huddleEnded (channelId huddleId byUserId byUsername : String)
deriving DecidableEq

/-- One socket emission. -/
structure Emit where
  target : Target
  event : SEvent
deriving DecidableEq

/-- The observable outcome of one socket handler invocation: the store
afterwards, the rooms the socket joined, and the events emitted in order. -/
structure HandlerOut where
  db : DB
  roomsJoined : List String
  emits : List Emit
deriving DecidableEq

/-- `getChannelMetaFromKey`: derive channel type and display name from
the key by convention. -/
def getChannelMetaFromKey (channelKey : String) : String × String :=
  if channelKey = "general" then ("public", "#general")
  else if channelKey.startsWith "dm:" then ("dm", "Direct message")
  else if channelKey.startsWith "thread:" then ("thread", "Thread")
  else ("public", channelKey)

/-- The `getOrCreateChannelByKey` argument the join/message handlers build. -/
def joinArgs (channelKey userId : String) : ChannelArgs :=
  { key := channelKey, ctype := (getChannelMetaFromKey channelKey).1,
    name := (getChannelMetaFromKey channelKey).2, createdBy := userId }

/-- The `chat:join` handler: resolve/create the channel; deny non-members
of private channels before joining the room or sending history; otherwise
ensure membership, join the room, send the history snapshot and (when
present) the active-huddle snapshot to the joiner, and announce the join
to the rest of the room. -/
def chatJoin (db : DB) (userId username channelKey : String) : HandlerOut :=
  if channelKey = "" then { db := db, roomsJoined := [], emits := [] }
  else
    let channel := (getOrCreateChannelByKey db (joinArgs channelKey userId)).1
    let db1 := (getOrCreateChannelByKey db (joinArgs channelKey userId)).2
    if channel.isPrivate && !(isChannelMember db1 channel.id userId) then
      { db := db1, roomsJoined := [],
        emits := [⟨Target.toSelf,
          SEvent.joinDenied "You are not a member of this private channel."⟩] }
    else
      let db2 := ensureChannelMember db1 channel.id userId
      let room := "channel:" ++ channelKey
      let recent := getRecentMessages db2 channel.id 100 none
      let huddleEmits : List Emit :=
        match getActiveHuddle db2 channelKey with
        | some h => [⟨Target.toSelf, SEvent.huddleStarted channelKey h.huddle_id
            h.started_by (if h.started_by = "" then "Unknown" else "User")⟩]
        | none => []
      { db := db2, roomsJoined := [room],
        emits := ⟨Target.toSelf,
            SEvent.history channelKey (recent.map (toHistItem channelKey username))⟩
          :: huddleEmits
          ++ [⟨Target.toRoomOthers room,
                SEvent.systemEvent "join" channelKey userId username⟩] }

/-- The `chat:message` handler: reject blank payloads; resolve/create the
channel by key; reject non-members of private channels with a
`chat:error`; otherwise ensure membership, persist the message, and
broadcast it (echoing `tempId`) to the whole channel room. -/
def chatMessage (db : DB) (userId username : String)
    (channelId text tempId parentId : Option String) : HandlerOut :=
  let cid := jsStr channelId
  let t := jsStr text
  if cid = "" ∨ jsTrim t = "" then { db := db, roomsJoined := [], emits := [] }
  else
    let channel := (getOrCreateChannelByKey db (joinArgs cid userId)).1
    let db1 := (getOrCreateChannelByKey db (joinArgs cid userId)).2
    if channel.isPrivate && !(isChannelMember db1 channel.id userId) then
      { db := db1, roomsJoined := [],
        emits := [⟨Target.toSelf,
          SEvent.chatError "You are not a member of this private channel."⟩] }
    else
      let db2 := ensureChannelMember db1 channel.id userId
      let args : MessageArgs :=
        { channelId := channel.id, userId := userId, textHtml := some (jsTrim t),
          parentId := jsNull parentId, encryptedJson := none, fallbackText := none }
      let saved := (createChatMessage db2 args).1
      let db3 := (createChatMessage db2 args).2
      { db := db3, roomsJoined := [],
        emits := [⟨Target.toRoom ("channel:" ++ cid), SEvent.chatMessage
          { id := saved.id, tempId := jsNull tempId, channelId := cid,
            userId := userId, username := username, textHtml := saved.text_html,
            createdAt := saved.created_at, updatedAt := saved.updated_at,
            deletedAt := saved.deleted_at }⟩] }

/-- The `huddle:start` handler: reject blank payloads; when an active
huddle already exists do nothing; otherwise persist the huddle and
broadcast `huddle:started` to the room. -/
def huddleStartHandler (db : DB) (userId username : String)
    (channelId huddleId : Option String) : HandlerOut :=
  let cid := jsStr channelId
  let hid := jsStr huddleId
  if cid = "" ∨ hid = "" then { db := db, roomsJoined := [], emits := [] }
  else
    match getActiveHuddle db cid with
    | some _ => { db := db, roomsJoined := [], emits := [] }
    | none =>
      let db1 := (createHuddle db cid hid userId).2
      { db := db1, roomsJoined := [],
        emits := [⟨Target.toRoom ("channel:" ++ cid),
          SEvent.huddleStarted cid hid userId username⟩] }

/-- The `huddle:end` handler: persist the end (best effort) and broadcast
`huddle:ended` to the room regardless of whether a row matched. -/
def huddleEndHandler (db : DB) (userId username : String)
    (channelId huddleId : Option String) : HandlerOut :=
  let cid := jsStr channelId
  let hid := jsStr huddleId
  if cid = "" ∨ hid = "" then { db := db, roomsJoined := [], emits := [] }
  else
    let db1 := (endHuddle db cid hid).2
    { db := db1, roomsJoined := [],
      emits := [⟨Target.toRoom ("channel:" ++ cid),
        SEvent.huddleEnded cid hid userId username⟩] }

/-! ### Membership/admin REST routes (`src/unnamed/part_000`) -/

/-- HTTP statuses the modelled routes produce. -/
inductive RestStatus
  | ok
  | badRequest
  | notFound
  | forbidden
deriving DecidableEq

/-- Outcome of a REST request: the store afterwards and the status. -/
structure RestOut where
  db : DB
  status : RestStatus
deriving DecidableEq

/-- POST /chat/channels/:channelId/members: only an admin of the channel
or its creator may add a member. -/
def postChannelMemberRoute (db : DB) (requesterId channelId : String)
    (userIdToAdd : Option String) : RestOut :=
  match jsNull userIdToAdd with
  | none => { db := db, status := RestStatus.badRequest }
  | some uid =>
    match getChannelById db channelId with
    | none => { db := db, status := RestStatus.notFound }
    | some channel =>
      if !(isChannelAdmin db channelId requesterId)
          && !(channel.createdBy == requesterId) then
        { db := db, status := RestStatus.forbidden }
      else
        { db := addChannelMember db channelId uid, status := RestStatus.ok }

/-- DELETE /chat/channels/:channelId/members/:userId: only an admin or
the creator may remove a member (the member's admin row is also removed). -/
def deleteChannelMemberRoute (db : DB) (requesterId channelId userId : String) :
    RestOut :=
  match getChannelById db channelId with
  | none => { db := db, status := RestStatus.notFound }
  | some channel =>
    if !(isChannelAdmin db channelId requesterId)
        && !(channel.createdBy == requesterId) then
      { db := db, status := RestStatus.forbidden }
    else
      { db := removeChannelAdmin (removeChannelMember db channelId userId) channelId userId,
        status := RestStatus.ok }

/-- POST /chat/channels/:channelId/admins: only an admin or the creator
may promote a user. -/
def postChannelAdminRoute (db : DB) (requesterId channelId : String)
    (userIdToAdd : Option String) : RestOut :=
  match jsNull userIdToAdd with
  | none => { db := db, status := RestStatus.badRequest }
  | some uid =>
    match getChannelById db channelId with
    | none => { db := db, status := RestStatus.notFound }
    | some channel =>
      if !(isChannelAdmin db channelId requesterId)
          && !(channel.createdBy == requesterId) then
        { db := db, status := RestStatus.forbidden }
      else
        { db := addChannelAdmin db channelId uid, status := RestStatus.ok }

/-- DELETE /chat/channels/:channelId/admins/:userId: only an admin or the
creator may demote an admin. -/
def deleteChannelAdminRoute (db : DB) (requesterId channelId userId : String) :
    RestOut :=
  match getChannelById db channelId with
  | none => { db := db, status := RestStatus.notFound }
  | some channel =>
    if !(isChannelAdmin db channelId requesterId)
        && !(channel.createdBy == requesterId) then
      { db := db, status := RestStatus.forbidden }
    else
      { db := removeChannelAdmin db channelId userId, status := RestStatus.ok }

/-- DELETE /chat/channels/:channelId: the service throws unless the
requester is an admin, and the route maps that error to 403. -/
def deleteChannelRoute (db : DB) (requesterId channelId : String) : RestOut :=
  match deleteChannel db channelId requesterId with
  | Except.error _ => { db := db, status := RestStatus.forbidden }
  | Except.ok db1 => { db := db1, status := RestStatus.ok }

/-- POST /chat/:channelKey/members (the legacy by-key route kept for
compatibility): validates the body, resolves the channel by key — lazily
creating it with the requester as createdBy when absent, so the 404
branch of the source is unreachable — and inserts the membership row
with NO admin/creator authorization check. -/
def postLegacyChannelMemberRoute (db : DB) (requesterId channelKey : String)
    (userIdToAdd : Option String) : RestOut :=
  match jsNull userIdToAdd with
  | none => { db := db, status := RestStatus.badRequest }
  | some uid =>
    match getChannelByKey db channelKey with
    | some channel =>
      { db := addChannelMember db channel.id uid, status := RestStatus.ok }
    | none =>
      { db := addChannelMember
          (getOrCreateChannelByKey db
            ⟨channelKey, "channel", channelKey, requesterId⟩).2
          (getOrCreateChannelByKey db
            ⟨channelKey, "channel", channelKey, requesterId⟩).1.id uid,
        status := RestStatus.ok }

/-! ### Derived observations and concrete fixtures -/

/-- Number of active (non-ended) huddle rows for a channel key. -/
def activeCount (db : DB) (channelKey : String) : Nat :=
  (db.huddles.filter (activeFor channelKey)).length

/-- The row transform a successful soft delete applies to every message
row (the SQL UPDATE applied row-wise). -/
def delApplyM (now : Nat) (mid u : String) (x : Message) : Message :=
  if ownActive mid u x then { x with deleted_at := some now } else x

/-- The same transform on joined history rows: mark exactly the author's
own non-deleted row with the given id, leave everything else unchanged. -/
def delMark (now : Nat) (mid u : String) (r : MsgRow) : MsgRow :=
  if r.id == mid && r.user_id == u && r.deleted_at.isNone then
    { r with deleted_at := some now }
  else r

/-- Fixture: a private channel created by user u1. -/
def chanPriv : Channel :=
  { id := "c1", key := "secret", name := "Secret", ctype := "public",
    createdBy := "u1", isPrivate := true, createdAt := 0 }

/-- Fixture: a message by u1 in the private channel. -/
def msgFix : Message :=
  { id := "m1", channel_id := "c1", user_id := "u1", text_html := "hello",
    encrypted_json := none, fallback_text := none, created_at := 1,
    updated_at := none, deleted_at := none, parent_id := none }

/-- Fixture: an active huddle on the private channel. -/
def hudFix : Huddle :=
  { channel_key := "secret", huddle_id := "h1", started_by := "u1",
    started_at := 2, ended_at := none }

/-- Fixture store: u1 owns a private channel with one message and an
active huddle; u2 is a known user with no membership anywhere. -/
def dbFix : DB :=
  { channels := [chanPriv], members := [("c1", "u1")], admins := [("c1", "u1")],
    messages := [msgFix], huddles := [hudFix],
    users := [⟨"u1", "alice"⟩, ⟨"u2", "bob"⟩], now := 9, nextId := 0 }

/-- Fixture message for the history counterexample: message number i of
the big public channel, created at time i. -/
def mkMsgN (i : Nat) : Message :=
  { id := "m" ++ toString i, channel_id := "cbig", user_id := "u1",
    text_html := "t", encrypted_json := none, fallback_text := none,
    created_at := i, updated_at := none, deleted_at := none, parent_id := none }

/-- Fixture: the big public channel the counterexample posts into. -/
def chanBig : Channel :=
  { id := "cbig", key := "general", name := "#general", ctype := "public",
    createdBy := "u1", isPrivate := false, createdAt := 0 }

/-- Fixture store with 101 messages in one public channel. -/
def dbBig : DB :=
  { channels := [chanBig], members := [], admins := [],
    messages := (List.range 101).map mkMsgN, huddles := [],
    users := [⟨"u1", "alice"⟩], now := 200, nextId := 0 }

/-! ### Helper lemmas -/

theorem filter_head_of_find? {α : Type} {p q : α → Bool} {l : List α} {m : α}
    (hf : l.find? q = some m) (hpq : ∀ x, p x = true → q x = true)
    (hm : p m = true) : ∃ t, l.filter p = m :: t := by
  induction l with
  | nil => simp at hf
  | cons a l ih =>
    by_cases ha : q a = true
    · rw [List.find?_cons_of_pos _ ha, Option.some_inj] at hf
      subst hf
      exact ⟨l.filter p, List.filter_cons_of_pos hm⟩
    · rw [List.find?_cons_of_neg _ ha] at hf
      obtain ⟨t, ht⟩ := ih hf
      refine ⟨t, ?_⟩
      rw [List.filter_cons_of_neg (fun hp => ha (hpq a hp)), ht]

theorem filter_ownActive_nil {db : DB} {mid u : String}
    (h : ∀ m ∈ db.messages, m.id = mid → m.user_id ≠ u ∨ m.deleted_at ≠ none) :
    db.messages.filter (ownActive mid u) = [] := by
  rw [List.filter_eq_nil_iff]
  intro m hm
  simp only [ownActive, Bool.and_eq_true, beq_iff_eq, Option.isNone_iff_eq_none]
  rintro ⟨⟨h1, h2⟩, h3⟩
  rcases h m hm h1 with h' | h'
  · exact h' h2
  · exact h' h3

theorem updateChatMessage_none_of_guard {db : DB} {mid u : String} (txt : String)
    (h : ∀ m ∈ db.messages, m.id = mid → m.user_id ≠ u ∨ m.deleted_at ≠ none) :
    updateChatMessage db mid u txt = (none, db) := by
  unfold updateChatMessage
  rw [filter_ownActive_nil h]

theorem softDeleteChatMessage_none_of_guard {db : DB} {mid u : String}
    (h : ∀ m ∈ db.messages, m.id = mid → m.user_id ≠ u ∨ m.deleted_at ≠ none) :
    softDeleteChatMessage db mid u = (none, db) := by
  unfold softDeleteChatMessage
  rw [filter_ownActive_nil h]

theorem getActiveHuddle_eq_none_iff (db : DB) (k : String) :
    getActiveHuddle db k = none ↔ db.huddles.filter (activeFor k) = [] := by
  unfold getActiveHuddle
  rw [List.head?_eq_none_iff]
  constructor
  · intro h
    have hperm := List.perm_insertionSort hudGe (db.huddles.filter (activeFor k))
    rw [h] at hperm
    exact hperm.symm.eq_nil
  · intro h
    rw [h]
    rfl

theorem getActiveHuddle_some_mem {db : DB} {k : String} {h : Huddle}
    (hh : getActiveHuddle db k = some h) :
    h ∈ db.huddles ∧ h.channel_key = k ∧ h.ended_at = none := by
  unfold getActiveHuddle at hh
  have hmem : h ∈ (db.huddles.filter (activeFor k)).insertionSort hudGe := by
    cases hs : (db.huddles.filter (activeFor k)).insertionSort hudGe with
    | nil => rw [hs] at hh; cases hh
    | cons a t =>
      rw [hs] at hh
      simp only [List.head?] at hh
      injection hh with hah
      subst hah
      exact List.mem_cons_self a t
  rw [List.mem_insertionSort] at hmem
  have := List.mem_filter.mp hmem
  refine ⟨this.1, ?_, ?_⟩
  · have h2 := this.2
    simp only [activeFor, Bool.and_eq_true, beq_iff_eq, Option.isNone_iff_eq_none] at h2
    exact h2.1
  · have h2 := this.2
    simp only [activeFor, Bool.and_eq_true, beq_iff_eq, Option.isNone_iff_eq_none] at h2
    exact h2.2

/-! ### Claim theorems -/

/-- C10: a `chat:message` event whose text is absent, empty or
whitespace-only, or whose channelId is absent (or empty, which JavaScript
also treats as falsy), is dropped before any effect: the store is
unchanged (no message row, no membership row) and nothing is emitted. -/
theorem chatMessage_blank_is_noop (db : DB) (u un : String)
    (channelId text tempId parentId : Option String)
    (h : jsStr channelId = "" ∨ jsTrim (jsStr text) = "") :
    chatMessage db u un channelId text tempId parentId = ⟨db, [], []⟩ := by
  unfold chatMessage
  rw [if_pos h]

/-- Witness for C10 at a whitespace-only text payload. -/
theorem chatMessage_blank_is_noop_witness :
    chatMessage dbFix "u1" "alice" (some "general") (some "   ") none none
      = ⟨dbFix, [], []⟩ :=
  chatMessage_blank_is_noop dbFix "u1" "alice" (some "general") (some "   ")
    none none (Or.inr (by decide))

/-- C3: get-or-create by key is idempotent (the second call returns the
same channel and leaves the store unchanged); an existing key is returned
unchanged whatever the other arguments are; a newly created channel has
isPrivate = false and carries the requested key. -/
theorem getOrCreateChannelByKey_idempotent (db : DB) (a b : ChannelArgs)
    (hk : b.key = a.key) :
    getOrCreateChannelByKey (getOrCreateChannelByKey db a).2 b
        = getOrCreateChannelByKey db a
      ∧ (∀ c, getChannelByKey db a.key = some c →
          getOrCreateChannelByKey db a = (c, db))
      ∧ (getChannelByKey db a.key = none →
          (getOrCreateChannelByKey db a).1.isPrivate = false
            ∧ (getOrCreateChannelByKey db a).1.key = a.key) := by
  have hpred : (fun c : Channel => c.key == b.key)
      = (fun c : Channel => c.key == a.key) := by
    funext c
    rw [hk]
  cases hfind : db.channels.find? (fun c => c.key == a.key) with
  | some c =>
    have h1 : getOrCreateChannelByKey db a = (c, db) := by
      unfold getOrCreateChannelByKey getChannelByKey
      rw [hfind]
    refine ⟨?_, ?_, ?_⟩
    · rw [h1]
      unfold getOrCreateChannelByKey getChannelByKey
      rw [hpred, hfind]
    · intro c' hc'
      unfold getChannelByKey at hc'
      rw [hfind] at hc'
      injection hc' with hcc
      rw [hcc] at h1
      exact h1
    · intro hnone
      unfold getChannelByKey at hnone
      rw [hfind] at hnone
      cases hnone
  | none =>
    have h1 : getOrCreateChannelByKey db a =
        ({ id := "uuid-" ++ toString db.nextId, key := a.key, name := a.name,
           ctype := a.ctype, createdBy := a.createdBy, isPrivate := false,
           createdAt := db.now },
         { db with nextId := db.nextId + 1,
                   channels := db.channels
                     ++ [{ id := "uuid-" ++ toString db.nextId, key := a.key,
                           name := a.name, ctype := a.ctype,
                           createdBy := a.createdBy, isPrivate := false,
                           createdAt := db.now }] }) := by
      unfold getOrCreateChannelByKey getChannelByKey freshId
      rw [hfind]
    refine ⟨?_, ?_, ?_⟩
    · rw [h1]
      unfold getOrCreateChannelByKey getChannelByKey
      rw [hpred, List.find?_append, hfind]
      simp only [Option.none_or, List.find?_cons, List.find?_nil, beq_self_eq_true]
    · intro c' hc'
      unfold getChannelByKey at hc'
      rw [hfind] at hc'
      cases hc'
    · intro _
      rw [h1]
      exact ⟨rfl, rfl⟩

/-- Witness for C3 on the fixture store and the key of its private
channel (second call with different type/name/createdBy arguments). -/
theorem getOrCreateChannelByKey_idempotent_witness :
    getOrCreateChannelByKey
        (getOrCreateChannelByKey dbFix ⟨"secret", "public", "Secret", "u1"⟩).2
        ⟨"secret", "dm", "Other", "u2"⟩
      = getOrCreateChannelByKey dbFix ⟨"secret", "public", "Secret", "u1"⟩ :=
  (getOrCreateChannelByKey_idempotent dbFix ⟨"secret", "public", "Secret", "u1"⟩
    ⟨"secret", "dm", "Other", "u2"⟩ rfl).1

/-- C5 (amended): on the guarded management routes — POST and DELETE
/chat/channels/:channelId/members and /admins, and channel deletion — a
requester who is neither an admin of the channel nor its original
creator is rejected with Forbidden and the store is unchanged (no
membership, admin, or channel row mutated).  Channel deletion is even
stricter in the service (admin only), so the same rejection applies.
The legacy POST /chat/:channelKey/members route is the exception the
code forces: it performs no such check (see the C5 counterexample). -/
theorem member_admin_mutation_requires_privilege (db : DB) (r cid uid : String)
    (c : Channel) (hc : getChannelById db cid = some c)
    (hadmin : isChannelAdmin db cid r = false)
    (hcreator : c.createdBy ≠ r) (huid : uid ≠ "") :
    postChannelMemberRoute db r cid (some uid) = ⟨db, RestStatus.forbidden⟩
      ∧ deleteChannelMemberRoute db r cid uid = ⟨db, RestStatus.forbidden⟩
      ∧ postChannelAdminRoute db r cid (some uid) = ⟨db, RestStatus.forbidden⟩
      ∧ deleteChannelAdminRoute db r cid uid = ⟨db, RestStatus.forbidden⟩
      ∧ deleteChannelRoute db r cid = ⟨db, RestStatus.forbidden⟩ := by
  have hbeq : (c.createdBy == r) = false := by
    rw [beq_eq_false_iff_ne]
    exact hcreator
  have hcond : (!(isChannelAdmin db cid r) && !(c.createdBy == r)) = true := by
    rw [hadmin, hbeq]
    rfl
  have hjn : jsNull (some uid) = some uid := by
    simp [jsNull, huid]
  refine ⟨?_, ?_, ?_, ?_, ?_⟩
  · simp only [postChannelMemberRoute, hjn, hc, hcond]
    rfl
  · simp only [deleteChannelMemberRoute, hc, hcond]
    rfl
  · simp only [postChannelAdminRoute, hjn, hc, hcond]
    rfl
  · simp only [deleteChannelAdminRoute, hc, hcond]
    rfl
  · simp only [deleteChannelRoute, deleteChannel, hadmin]
    rfl

/-- Witness for C5: u2 is neither admin nor creator of the fixture's
channel, and every management request of u2 is rejected unchanged. -/
theorem member_admin_mutation_requires_privilege_witness :
    postChannelMemberRoute dbFix "u2" "c1" (some "u3")
      = ⟨dbFix, RestStatus.forbidden⟩ :=
  (member_admin_mutation_requires_privilege dbFix "u2" "c1" "u3" chanPriv
    (by decide) (by decide) (by decide) (by decide)).1

/-- C5 counterexample: the legacy POST /chat/:channelKey/members route of
`src/unnamed/part_000` has no admin/creator check, so u2 — authenticated
but neither an admin nor the creator of the fixture's private channel —
adds u3 as a member: the request is answered 200, not Forbidden, and a
membership row (c1, u3) is inserted.  This refutes the claim that only
an admin or the creator may add members. -/
theorem legacy_member_route_bypasses_admin_check :
    isChannelAdmin dbFix "c1" "u2" = false
      ∧ chanPriv.createdBy ≠ "u2"
      ∧ postLegacyChannelMemberRoute dbFix "u2" "secret" (some "u3")
          = { db := { dbFix with members := dbFix.members ++ [("c1", "u3")] },
              status := RestStatus.ok }
      ∧ isChannelMember
          (postLegacyChannelMemberRoute dbFix "u2" "secret" (some "u3")).db
          "c1" "u3" = true := by
  refine ⟨?_, ?_, ?_, ?_⟩ <;> decide

/-- C1: a user who is not a member of an existing private channel is
rejected on `chat:join` with a single `chat:join:denied` event, joining no
room, receiving no history, and leaving the store untouched (no
membership row); and on `chat:message` (with any non-blank text) with a
single `chat:error` event, leaving the store untouched (no message row,
no membership row). -/
theorem private_channel_rejects_non_member (db : DB) (u un ck : String)
    (c : Channel) (hck : ck ≠ "") (hc : getChannelByKey db ck = some c)
    (hp : c.isPrivate = true) (hm : isChannelMember db c.id u = false) :
    chatJoin db u un ck
        = ⟨db, [], [⟨Target.toSelf,
            SEvent.joinDenied "You are not a member of this private channel."⟩]⟩
      ∧ ∀ t tempId parentId, jsTrim t ≠ "" →
          chatMessage db u un (some ck) (some t) tempId parentId
            = ⟨db, [], [⟨Target.toSelf,
                SEvent.chatError "You are not a member of this private channel."⟩]⟩ := by
  have hget : getOrCreateChannelByKey db (joinArgs ck u) = (c, db) := by
    unfold getOrCreateChannelByKey
    rw [show (joinArgs ck u).key = ck from rfl, hc]
  constructor
  · unfold chatJoin
    rw [if_neg hck]
    simp only [hget, hp, hm, Bool.not_false, Bool.and_self]
    exact if_pos trivial
  · intro t tempId parentId ht
    unfold chatMessage
    simp only [jsStr]
    rw [if_neg (by
      rintro (h1 | h2)
      · exact hck h1
      · exact ht h2)]
    simp only [hget, hp, hm, Bool.not_false, Bool.and_self]
    exact if_pos trivial

/-- Witness for C1: u2 (not a member) is denied on the fixture's private
channel. -/
theorem private_channel_rejects_non_member_witness :
    chatJoin dbFix "u2" "bob" "secret"
      = ⟨dbFix, [], [⟨Target.toSelf,
          SEvent.joinDenied "You are not a member of this private channel."⟩]⟩ :=
  (private_channel_rejects_non_member dbFix "u2" "bob" "secret" chanPriv
    (by decide) (by decide) (by decide) (by decide)).1

theorem eq_of_mem_of_length_le_one {α : Type} {l : List α} (hl : l.length ≤ 1)
    {a b : α} (ha : a ∈ l) (hb : b ∈ l) : a = b := by
  cases l with
  | nil => cases ha
  | cons x t =>
    cases t with
    | nil =>
      rw [List.mem_singleton] at ha hb
      rw [ha, hb]
    | cons y t2 => simp at hl

/-- C4: starting a huddle preserves the at-most-one-active-row-per-key
invariant; a `huddle:start` while an active huddle exists for the channel
is an exact no-op (store unchanged, nothing emitted); and any row
`getActiveHuddle` returns is an active row of that channel (by the query
it is at most one). -/
theorem huddle_at_most_one_active (db : DB) (u un : String)
    (cid hid : Option String) (hinv : ∀ k, activeCount db k ≤ 1) :
    (∀ k, activeCount (huddleStartHandler db u un cid hid).db k ≤ 1)
      ∧ (∀ h, getActiveHuddle db (jsStr cid) = some h →
          huddleStartHandler db u un cid hid = ⟨db, [], []⟩)
      ∧ (∀ k h, getActiveHuddle db k = some h →
          h ∈ db.huddles ∧ h.channel_key = k ∧ h.ended_at = none) := by
  refine ⟨?_, ?_, fun k h hh => getActiveHuddle_some_mem hh⟩
  · intro k
    unfold huddleStartHandler
    by_cases hg : jsStr cid = "" ∨ jsStr hid = ""
    · rw [if_pos hg]
      exact hinv k
    · rw [if_neg hg]
      cases hact : getActiveHuddle db (jsStr cid) with
      | some h => exact hinv k
      | none =>
        have hfil : db.huddles.filter (activeFor (jsStr cid)) = [] :=
          (getActiveHuddle_eq_none_iff db (jsStr cid)).mp hact
        by_cases hk : k = jsStr cid
        · rw [hk]
          show (((createHuddle db (jsStr cid) (jsStr hid) u).2).huddles.filter
              (activeFor (jsStr cid))).length ≤ 1
          unfold createHuddle
          rw [List.filter_append, hfil]
          simp [activeFor]
        · show (((createHuddle db (jsStr cid) (jsStr hid) u).2).huddles.filter
              (activeFor k)).length ≤ 1
          unfold createHuddle
          rw [List.filter_append]
          have hone : List.filter (activeFor k)
              [{ channel_key := jsStr cid, huddle_id := jsStr hid,
                 started_by := u, started_at := db.now, ended_at := none }]
              = [] := by
            simp only [List.filter, activeFor, Option.isNone_none,
              Bool.and_true]
            rw [show (jsStr cid == k) = false from
              beq_eq_false_iff_ne.mpr (fun he => hk he.symm)]
          rw [hone, List.append_nil]
          exact hinv k
  · intro h hh
    unfold huddleStartHandler
    by_cases hg : jsStr cid = "" ∨ jsStr hid = ""
    · rw [if_pos hg]
    · rw [if_neg hg, hh]

/-- Witness for C4: starting huddle h9 on the fixture channel, which
already has active huddle h1, changes nothing and emits nothing. -/
theorem huddle_at_most_one_active_witness :
    huddleStartHandler dbFix "u2" "bob" (some "secret") (some "h9")
      = ⟨dbFix, [], []⟩ :=
  (huddle_at_most_one_active dbFix "u2" "bob" (some "secret") (some "h9")
    (fun k => le_trans (List.length_filter_le _ _) (by decide))).2.1
    hudFix (by decide)

/-- C8: `endHuddle` returns null and leaves the store unchanged when no
active row carries exactly the given channel key and huddle id; a
successful end returns that row with endedAt set and only touches
matching rows; and with the at-most-one-active invariant, ending with a
mismatched id on a channel whose active huddle has a different id is a
no-op, so the actually-active huddle stays active. -/
theorem endHuddle_requires_exact_active_match (db : DB) (k hid : String) :
    ((∀ h ∈ db.huddles,
        ¬(h.channel_key = k ∧ h.huddle_id = hid ∧ h.ended_at = none)) →
        endHuddle db k hid = (none, db))
      ∧ (∀ res db1, endHuddle db k hid = (some res, db1) →
          res.channel_key = k ∧ res.huddle_id = hid
            ∧ res.ended_at = some db.now
            ∧ db1.huddles = db.huddles.map (fun x =>
                if endMatch k hid x then { x with ended_at := some db.now }
                else x))
      ∧ (∀ h, getActiveHuddle db k = some h → h.huddle_id ≠ hid →
          activeCount db k ≤ 1 → endHuddle db k hid = (none, db)) := by
  have hnone : (∀ h ∈ db.huddles,
      ¬(h.channel_key = k ∧ h.huddle_id = hid ∧ h.ended_at = none)) →
      endHuddle db k hid = (none, db) := by
    intro hguard
    have hfil : db.huddles.filter (endMatch k hid) = [] := by
      rw [List.filter_eq_nil_iff]
      intro x hx
      simp only [endMatch, Bool.and_eq_true, beq_iff_eq,
        Option.isNone_iff_eq_none]
      rintro ⟨⟨e1, e2⟩, e3⟩
      exact hguard x hx ⟨e1, e2, e3⟩
    unfold endHuddle
    rw [hfil]
  refine ⟨hnone, ?_, ?_⟩
  · intro res db1 he
    unfold endHuddle at he
    cases hfil : db.huddles.filter (endMatch k hid) with
    | nil =>
      rw [hfil] at he
      simp at he
    | cons h t =>
      rw [hfil] at he
      simp only [Prod.mk.injEq, Option.some_inj] at he
      obtain ⟨h1, h2⟩ := he
      have hmemf : h ∈ db.huddles.filter (endMatch k hid) := by
        rw [hfil]
        exact List.mem_cons_self h t
      have hp := (List.mem_filter.mp hmemf).2
      simp only [endMatch, Bool.and_eq_true, beq_iff_eq,
        Option.isNone_iff_eq_none] at hp
      refine ⟨?_, ?_, ?_, ?_⟩
      · rw [← h1]
        exact hp.1.1
      · rw [← h1]
        exact hp.1.2
      · rw [← h1]
      · rw [← h2]
  · intro h hh hne hcnt
    refine hnone ?_
    intro x hx
    rintro ⟨e1, e2, e3⟩
    have hxmem : x ∈ db.huddles.filter (activeFor k) :=
      List.mem_filter.mpr ⟨hx, by simp [activeFor, e1, e3]⟩
    obtain ⟨hhm, hhk, hhe⟩ := getActiveHuddle_some_mem hh
    have hhmem : h ∈ db.huddles.filter (activeFor k) :=
      List.mem_filter.mpr ⟨hhm, by simp [activeFor, hhk, hhe]⟩
    have hxh : x = h := eq_of_mem_of_length_le_one hcnt hxmem hhmem
    rw [hxh] at e2
    exact hne e2

/-- Witness for C8: ending with a wrong huddle id on the fixture channel
whose active huddle is h1 is a no-op. -/
theorem endHuddle_requires_exact_active_match_witness :
    endHuddle dbFix "secret" "wrong-id" = (none, dbFix) :=
  (endHuddle_requires_exact_active_match dbFix "secret" "wrong-id").2.2
    hudFix (by decide) (by decide)
    (le_trans (List.length_filter_le _ _) (by decide))

/-- C2: edit and soft delete return null and leave the store untouched
whenever no message row carries the given id with this author and a null
deletedAt (message absent, foreign author, or already deleted); when the
guard passes, edit sets updatedAt (and the new text) and delete sets
deletedAt on that row, and after a delete the Deleted state is terminal:
no further edit or delete of the message is accepted. -/
theorem message_edit_delete_author_guard (db : DB) (mid u txt : String) :
    ((∀ m ∈ db.messages, m.id = mid → m.user_id ≠ u ∨ m.deleted_at ≠ none) →
        updateChatMessage db mid u txt = (none, db)
          ∧ softDeleteChatMessage db mid u = (none, db))
      ∧ (∀ m, db.messages.find? (fun x => x.id == mid) = some m →
          m.user_id = u → m.deleted_at = none →
          (updateChatMessage db mid u txt).1
              = some { m with text_html := txt, updated_at := some db.now }
            ∧ (softDeleteChatMessage db mid u).1
              = some { m with deleted_at := some db.now }
            ∧ updateChatMessage (softDeleteChatMessage db mid u).2 mid u txt
              = (none, (softDeleteChatMessage db mid u).2)
            ∧ softDeleteChatMessage (softDeleteChatMessage db mid u).2 mid u
              = (none, (softDeleteChatMessage db mid u).2)) := by
  constructor
  · intro hguard
    exact ⟨updateChatMessage_none_of_guard txt hguard,
           softDeleteChatMessage_none_of_guard hguard⟩
  · intro m hfind hmu hmd
    have hq : ∀ x : Message, ownActive mid u x = true → (x.id == mid) = true := by
      intro x hx
      simp only [ownActive, Bool.and_eq_true] at hx
      exact hx.1.1
    have hpm : ownActive mid u m = true := by
      have hid := List.find?_some hfind
      simp only [ownActive, Bool.and_eq_true, beq_iff_eq,
        Option.isNone_iff_eq_none]
      exact ⟨⟨beq_iff_eq.mp hid, hmu⟩, hmd⟩
    obtain ⟨t, ht⟩ := filter_head_of_find? hfind hq hpm
    have hupd : updateChatMessage db mid u txt
        = (some { m with text_html := txt, updated_at := some db.now },
           { db with messages := db.messages.map (fun x =>
               if ownActive mid u x then
                 { x with text_html := txt, updated_at := some db.now }
               else x) }) := by
      unfold updateChatMessage
      rw [ht]
    have hdel : softDeleteChatMessage db mid u
        = (some { m with deleted_at := some db.now },
           { db with messages := db.messages.map (fun x =>
               if ownActive mid u x then { x with deleted_at := some db.now }
               else x) }) := by
      unfold softDeleteChatMessage
      rw [ht]
    have hterm : ∀ z ∈ (softDeleteChatMessage db mid u).2.messages,
        z.id = mid → z.user_id ≠ u ∨ z.deleted_at ≠ none := by
      intro z hz hzid
      rw [hdel] at hz
      simp only [List.mem_map] at hz
      obtain ⟨y, hy, rfl⟩ := hz
      by_cases ho : ownActive mid u y = true
      · right
        simp [ho]
      · simp only [ho, if_false, reduceIte] at hzid ⊢
        have hny := ho
        simp only [ownActive, Bool.and_eq_true, beq_iff_eq,
          Option.isNone_iff_eq_none] at hny
        by_cases hu2 : y.user_id = u
        · right
          intro hd
          exact hny ⟨⟨hzid, hu2⟩, hd⟩
        · left
          exact hu2
    exact ⟨by rw [hupd], by rw [hdel],
           updateChatMessage_none_of_guard txt hterm,
           softDeleteChatMessage_none_of_guard hterm⟩

/-- Witness for C2: u1 edits their own active fixture message and the
store returns the row with new text and updatedAt set. -/
theorem message_edit_delete_author_guard_witness :
    (updateChatMessage dbFix "m1" "u1" "edited").1
      = some { msgFix with text_html := "edited", updated_at := some dbFix.now } :=
  ((message_edit_delete_author_guard dbFix "m1" "u1" "edited").2 msgFix
    (by decide) (by decide) (by decide)).1

theorem isChannelMember_ext {db db' : DB} (h : db'.members = db.members)
    (cid uid : String) :
    isChannelMember db' cid uid = isChannelMember db cid uid := by
  unfold isChannelMember
  rw [h]

theorem getChannelByKey_ext {db db' : DB} (h : db'.channels = db.channels)
    (k : String) : getChannelByKey db' k = getChannelByKey db k := by
  unfold getChannelByKey
  rw [h]

theorem ensureChannelMember_channels (db : DB) (cid uid : String) :
    (ensureChannelMember db cid uid).channels = db.channels := by
  unfold ensureChannelMember
  split <;> rfl

theorem ensureChannelMember_messages (db : DB) (cid uid : String) :
    (ensureChannelMember db cid uid).messages = db.messages := by
  unfold ensureChannelMember
  split <;> rfl

theorem ensureChannelMember_isMember (db : DB) (cid uid : String) :
    isChannelMember (ensureChannelMember db cid uid) cid uid = true := by
  unfold ensureChannelMember
  by_cases h : isChannelMember db cid uid = true
  · rw [if_pos h]
    exact h
  · rw [if_neg h]
    unfold isChannelMember
    rw [List.any_append]
    simp

theorem ensureChannelMember_of_member (db : DB) (cid uid : String)
    (h : isChannelMember db cid uid = true) :
    ensureChannelMember db cid uid = db := by
  unfold ensureChannelMember
  rw [if_pos h]

theorem createChatMessage_members (db : DB) (a : MessageArgs) :
    ((createChatMessage db a).2).members = db.members := rfl

theorem createChatMessage_channels (db : DB) (a : MessageArgs) :
    ((createChatMessage db a).2).channels = db.channels := rfl

theorem createChatMessage_messages (db : DB) (a : MessageArgs) :
    ((createChatMessage db a).2).messages
      = db.messages ++ [(createChatMessage db a).1] := rfl

theorem getOrCreate_members (db : DB) (a : ChannelArgs) :
    ((getOrCreateChannelByKey db a).2).members = db.members := by
  unfold getOrCreateChannelByKey
  cases getChannelByKey db a.key <;> rfl

theorem getOrCreate_messages (db : DB) (a : ChannelArgs) :
    ((getOrCreateChannelByKey db a).2).messages = db.messages := by
  unfold getOrCreateChannelByKey
  cases getChannelByKey db a.key <;> rfl

theorem getOrCreate_lookup (db : DB) (a : ChannelArgs) :
    getChannelByKey (getOrCreateChannelByKey db a).2 a.key
      = some (getOrCreateChannelByKey db a).1 := by
  unfold getOrCreateChannelByKey
  cases hfind : getChannelByKey db a.key with
  | some c => exact hfind
  | none =>
    unfold getChannelByKey at hfind ⊢
    simp only [freshId]
    rw [List.find?_append, hfind]
    simp

/-- C9: an authorized `chat:message` (the resolved channel is public, or
the poster is already a member) persists exactly one new message row and
auto-enrolls the poster: afterwards the membership row exists; a second
identical post adds no membership row; and a poster who was already a
member gains no duplicate row even on the first post. -/
theorem post_auto_enrolls_member (db : DB) (u un ck t : String)
    (tempId parentId : Option String)
    (hck : ck ≠ "") (ht : jsTrim t ≠ "")
    (hauth : (getOrCreateChannelByKey db (joinArgs ck u)).1.isPrivate = false
      ∨ isChannelMember (getOrCreateChannelByKey db (joinArgs ck u)).2
          (getOrCreateChannelByKey db (joinArgs ck u)).1.id u = true) :
    isChannelMember (chatMessage db u un (some ck) (some t) tempId parentId).db
        (getOrCreateChannelByKey db (joinArgs ck u)).1.id u = true
      ∧ (chatMessage (chatMessage db u un (some ck) (some t) tempId parentId).db
            u un (some ck) (some t) tempId parentId).db.members
          = (chatMessage db u un (some ck) (some t) tempId parentId).db.members
      ∧ (chatMessage db u un (some ck) (some t) tempId parentId).db.messages.length
          = db.messages.length + 1
      ∧ (isChannelMember (getOrCreateChannelByKey db (joinArgs ck u)).2
            (getOrCreateChannelByKey db (joinArgs ck u)).1.id u = true →
          (chatMessage db u un (some ck) (some t) tempId parentId).db.members
            = db.members) := by
  have hguard : ¬(ck = "" ∨ jsTrim t = "") := by
    rintro (h | h)
    · exact hck h
    · exact ht h
  have hcondneg : ¬(((getOrCreateChannelByKey db (joinArgs ck u)).1.isPrivate
      && !(isChannelMember (getOrCreateChannelByKey db (joinArgs ck u)).2
            (getOrCreateChannelByKey db (joinArgs ck u)).1.id u)) = true) := by
    rcases hauth with h | h
    · rw [h]
      simp
    · rw [h]
      simp
  have hdb : (chatMessage db u un (some ck) (some t) tempId parentId).db
      = (createChatMessage
          (ensureChannelMember (getOrCreateChannelByKey db (joinArgs ck u)).2
            (getOrCreateChannelByKey db (joinArgs ck u)).1.id u)
          { channelId := (getOrCreateChannelByKey db (joinArgs ck u)).1.id,
            userId := u, textHtml := some (jsTrim t),
            parentId := jsNull parentId, encryptedJson := none,
            fallbackText := none }).2 := by
    simp only [chatMessage, jsStr]
    rw [if_neg hguard, if_neg hcondneg]
  have hmem1 : isChannelMember
      (chatMessage db u un (some ck) (some t) tempId parentId).db
      (getOrCreateChannelByKey db (joinArgs ck u)).1.id u = true := by
    rw [hdb, isChannelMember_ext (createChatMessage_members _ _)]
    exact ensureChannelMember_isMember _ _ _
  refine ⟨hmem1, ?_, ?_, ?_⟩
  · have hchan3 : (chatMessage db u un (some ck) (some t) tempId parentId).db.channels
        = ((getOrCreateChannelByKey db (joinArgs ck u)).2).channels := by
      rw [hdb, createChatMessage_channels, ensureChannelMember_channels]
    have hlookup : getChannelByKey
        (chatMessage db u un (some ck) (some t) tempId parentId).db ck
        = some (getOrCreateChannelByKey db (joinArgs ck u)).1 := by
      rw [getChannelByKey_ext hchan3]
      exact getOrCreate_lookup db (joinArgs ck u)
    have hget2 : getOrCreateChannelByKey
        (chatMessage db u un (some ck) (some t) tempId parentId).db (joinArgs ck u)
        = ((getOrCreateChannelByKey db (joinArgs ck u)).1,
           (chatMessage db u un (some ck) (some t) tempId parentId).db) := by
      unfold getOrCreateChannelByKey
      rw [show (joinArgs ck u).key = ck from rfl, hlookup]
      rfl
    have hcondneg2 : ¬(((getOrCreateChannelByKey db (joinArgs ck u)).1.isPrivate
        && !(isChannelMember
              (chatMessage db u un (some ck) (some t) tempId parentId).db
              (getOrCreateChannelByKey db (joinArgs ck u)).1.id u)) = true) := by
      rw [hmem1]
      simp
    have hdb2 : (chatMessage
        (chatMessage db u un (some ck) (some t) tempId parentId).db
        u un (some ck) (some t) tempId parentId).db
        = (createChatMessage
            (ensureChannelMember
              (chatMessage db u un (some ck) (some t) tempId parentId).db
              (getOrCreateChannelByKey db (joinArgs ck u)).1.id u)
            { channelId := (getOrCreateChannelByKey db (joinArgs ck u)).1.id,
              userId := u, textHtml := some (jsTrim t),
              parentId := jsNull parentId, encryptedJson := none,
              fallbackText := none }).2 := by
      revert hget2 hcondneg2
      generalize (chatMessage db u un (some ck) (some t) tempId parentId).db = X
      intro hget2 hcondneg2
      simp only [chatMessage, jsStr]
      rw [if_neg hguard]
      simp only [hget2]
      rw [if_neg hcondneg2]
    rw [hdb2, createChatMessage_members, ensureChannelMember_of_member _ _ _ hmem1]
  · rw [hdb, createChatMessage_messages, List.length_append,
      ensureChannelMember_messages, getOrCreate_messages]
    rfl
  · intro hmem
    rw [hdb, createChatMessage_members, ensureChannelMember_of_member _ _ _ hmem,
      getOrCreate_members]

/-- Witness for C9: u2 posts into the public channel "general" (created
lazily) and ends up enrolled as a member. -/
theorem post_auto_enrolls_member_witness :
    isChannelMember
        (chatMessage dbFix "u2" "bob" (some "general") (some "hi") none none).db
        (getOrCreateChannelByKey dbFix (joinArgs "general" "u2")).1.id
        "u2" = true :=
  (post_auto_enrolls_member dbFix "u2" "bob" "general" "hi" none none
    (by decide) (by decide) (Or.inl (by decide))).1

theorem delApplyM_channel_id (now : Nat) (mid u : String) (x : Message) :
    (delApplyM now mid u x).channel_id = x.channel_id := by
  unfold delApplyM
  split <;> rfl

theorem delApplyM_user_id (now : Nat) (mid u : String) (x : Message) :
    (delApplyM now mid u x).user_id = x.user_id := by
  unfold delApplyM
  split <;> rfl

theorem delMark_created_at (now : Nat) (mid u : String) (r : MsgRow) :
    (delMark now mid u r).created_at = r.created_at := by
  unfold delMark
  split <;> rfl

theorem rowOf_delApplyM (now : Nat) (mid u : String) (x : Message)
    (un : String) :
    rowOf (delApplyM now mid u x) un = delMark now mid u (rowOf x un) := by
  unfold delApplyM delMark ownActive
  by_cases h : (x.id == mid && x.user_id == u && x.deleted_at.isNone) = true
  · rw [if_pos h, if_pos (show ((rowOf x un).id == mid
        && (rowOf x un).user_id == u && (rowOf x un).deleted_at.isNone)
        = true from h)]
    rfl
  · rw [if_neg h, if_neg (show ¬(((rowOf x un).id == mid
        && (rowOf x un).user_id == u && (rowOf x un).deleted_at.isNone)
        = true) from h)]

theorem joinRow_delApplyM (db : DB) (now : Nat) (mid u : String)
    (x : Message) :
    joinRow db (delApplyM now mid u x)
      = Option.map (delMark now mid u) (joinRow db x) := by
  unfold joinRow
  rw [delApplyM_user_id]
  cases db.users.find? (fun us => us.id == x.user_id) with
  | none => rfl
  | some us => simp [rowOf_delApplyM]

theorem chanMatch_delApplyM (cid : String) (key : Option String) (now : Nat)
    (mid u : String) (x : Message) :
    chanMatch cid key (delApplyM now mid u x) = chanMatch cid key x := by
  unfold chanMatch
  cases key with
  | none => rw [delApplyM_channel_id]
  | some k => rw [delApplyM_channel_id]

theorem getRecentMessages_map_delApplyM (db : DB) (mid u : String)
    (cid : String) (N : Nat) (key : Option String) :
    getRecentMessages
        { db with messages := db.messages.map (delApplyM db.now mid u) }
        cid N key
      = (getRecentMessages db cid N key).map (delMark db.now mid u) := by
  unfold getRecentMessages
  rw [List.filter_map]
  rw [show (chanMatch cid (resolveKeyFallback cid key)
        ∘ delApplyM db.now mid u)
      = chanMatch cid (resolveKeyFallback cid key) from
    funext fun x => chanMatch_delApplyM cid (resolveKeyFallback cid key)
      db.now mid u x]
  rw [List.filterMap_map]
  rw [show (joinRow { db with
        messages := db.messages.map (delApplyM db.now mid u) }
        ∘ delApplyM db.now mid u)
      = fun x => Option.map (delMark db.now mid u) (joinRow db x) from
    funext fun x => joinRow_delApplyM db db.now mid u x]
  rw [← List.map_filterMap]
  rw [List.map_take]
  rw [List.map_insertionSort rowLe rowLe (delMark db.now mid u) _
    (fun a _ b _ => by
      unfold rowLe
      rw [delMark_created_at, delMark_created_at])]

/-- C7: a successful soft delete sets deletedAt on the returned row,
removes no row, and changes history only pointwise: every subsequent
`getRecentMessages` result is the previous result with exactly the
deleted row marked (id, text, author, timestamps all unchanged); in
particular the deleted message still appears, with its textHtml intact
and a non-null deletion marker. -/
theorem soft_delete_preserves_history (db : DB) (mid u : String)
    (m1 : Message) (db1 : DB)
    (h : softDeleteChatMessage db mid u = (some m1, db1)) :
    m1.deleted_at = some db.now
      ∧ db1.messages.length = db.messages.length
      ∧ (∀ cid N key, getRecentMessages db1 cid N key
          = (getRecentMessages db cid N key).map (delMark db.now mid u))
      ∧ (∀ cid N key r, r ∈ getRecentMessages db cid N key →
          r.id = mid → r.user_id = u → r.deleted_at = none →
          delMark db.now mid u r ∈ getRecentMessages db1 cid N key
            ∧ (delMark db.now mid u r).text_html = r.text_html
            ∧ (delMark db.now mid u r).username = r.username
            ∧ (delMark db.now mid u r).created_at = r.created_at
            ∧ (delMark db.now mid u r).deleted_at = some db.now) := by
  have hext : db1 = { db with
        messages := db.messages.map (delApplyM db.now mid u) }
      ∧ m1.deleted_at = some db.now := by
    unfold softDeleteChatMessage at h
    cases hfil : db.messages.filter (ownActive mid u) with
    | nil =>
      rw [hfil] at h
      simp at h
    | cons m t =>
      rw [hfil] at h
      simp only [Prod.mk.injEq, Option.some_inj] at h
      obtain ⟨h1, h2⟩ := h
      constructor
      · rw [← h2]
        rfl
      · rw [← h1]
  obtain ⟨hdbe, hm1⟩ := hext
  subst hdbe
  refine ⟨hm1, ?_, ?_, ?_⟩
  · exact List.length_map _ _
  · intro cid N key
    exact getRecentMessages_map_delApplyM db mid u cid N key
  · intro cid N key r hr hrid hru hrd
    refine ⟨?_, ?_, ?_, ?_, ?_⟩
    · rw [getRecentMessages_map_delApplyM]
      exact List.mem_map_of_mem _ hr
    · unfold delMark
      split <;> rfl
    · unfold delMark
      split <;> rfl
    · exact delMark_created_at db.now mid u r
    · unfold delMark
      rw [if_pos (by simp [hrid, hru, hrd])]

/-- Witness for C7: deleting the fixture message and querying history
gives exactly the old history with the row marked deleted. -/
theorem soft_delete_preserves_history_witness :
    getRecentMessages
        { dbFix with messages := [{ msgFix with deleted_at := some 9 }] }
        "c1" 10 none
      = (getRecentMessages dbFix "c1" 10 none).map
          (delMark dbFix.now "m1" "u1") :=
  (soft_delete_preserves_history dbFix "m1" "u1"
    { msgFix with deleted_at := some 9 }
    { dbFix with messages := [{ msgFix with deleted_at := some 9 }] }
    (by decide)).2.2.1 "c1" 10 none

/-- C6 (amended): `getRecentMessages` returns rows of the requested
channel ascending by creation time, capped at the limit, each joined with
the author's username; when the channel holds at most `limit` matching
rows, every message with a known author appears; and the `chat:join`
history snapshot is exactly the client-mapped `getRecentMessages` result
with limit 100 — up to 100 of the channel's oldest messages (ascending),
not its most recent ones. -/
theorem getRecentMessages_ordered_capped_joined (db : DB) (cid : String)
    (N : Nat) :
    List.Sorted rowLe (getRecentMessages db cid N none)
      ∧ (getRecentMessages db cid N none).length ≤ N
      ∧ (∀ r ∈ getRecentMessages db cid N none,
          r.channel_id = cid
            ∧ ∃ usr ∈ db.users, usr.id = r.user_id
                ∧ r.username = usr.username)
      ∧ ((db.messages.filter (fun m => m.channel_id == cid)).length ≤ N →
          ∀ m ∈ db.messages, m.channel_id = cid →
          ∀ r, joinRow db m = some r →
            r ∈ getRecentMessages db cid N none)
      ∧ (∀ u un ck c, ck ≠ "" → getChannelByKey db ck = some c →
          (c.isPrivate = false ∨ isChannelMember db c.id u = true) →
          (chatJoin db u un ck).emits.head?
            = some ⟨Target.toSelf, SEvent.history ck
                ((getRecentMessages (ensureChannelMember db c.id u) c.id 100
                    none).map (toHistItem ck un))⟩) := by
  have hkey : resolveKeyFallback cid none = none := rfl
  have hchan : chanMatch cid (resolveKeyFallback cid none)
      = fun m : Message => m.channel_id == cid := rfl
  refine ⟨?_, ?_, ?_, ?_, ?_⟩
  · exact List.Pairwise.sublist (List.take_sublist N _)
      (List.sorted_insertionSort rowLe _)
  · unfold getRecentMessages
    rw [List.length_take]
    exact min_le_left _ _
  · intro r hr
    have hr2 : r ∈ ((db.messages.filter
        (chanMatch cid (resolveKeyFallback cid none))).filterMap
          (joinRow db)).insertionSort rowLe := List.mem_of_mem_take hr
    rw [List.mem_insertionSort, List.mem_filterMap] at hr2
    obtain ⟨m, hm, hjm⟩ := hr2
    obtain ⟨hmm, hmc⟩ := List.mem_filter.mp hm
    unfold joinRow at hjm
    cases hfu : db.users.find? (fun us => us.id == m.user_id) with
    | none =>
      rw [hfu] at hjm
      cases hjm
    | some usr =>
      rw [hfu] at hjm
      simp at hjm
      rw [hchan] at hmc
      constructor
      · rw [← hjm]
        exact beq_iff_eq.mp hmc
      · refine ⟨usr, List.mem_of_find?_eq_some hfu, ?_, ?_⟩
        · have := List.find?_some hfu
          rw [← hjm]
          exact beq_iff_eq.mp this
        · rw [← hjm]
          rfl
  · intro hlen m hm hmc r hjr
    have hmf : m ∈ db.messages.filter
        (chanMatch cid (resolveKeyFallback cid none)) := by
      rw [hchan]
      exact List.mem_filter.mpr ⟨hm, beq_iff_eq.mpr hmc⟩
    have hrL : r ∈ (db.messages.filter
        (chanMatch cid (resolveKeyFallback cid none))).filterMap
          (joinRow db) :=
      List.mem_filterMap.mpr ⟨m, hmf, hjr⟩
    have hlenL : ((db.messages.filter
        (chanMatch cid (resolveKeyFallback cid none))).filterMap
          (joinRow db)).length ≤ N := by
      refine le_trans (List.length_filterMap_le _ _) ?_
      rw [hchan]
      exact hlen
    unfold getRecentMessages
    rw [List.take_of_length_le (by
      rw [List.length_insertionSort]
      exact hlenL)]
    rw [List.mem_insertionSort]
    exact hrL
  · intro u un ck c hck hc hauth
    have hget : getOrCreateChannelByKey db (joinArgs ck u) = (c, db) := by
      unfold getOrCreateChannelByKey
      rw [show (joinArgs ck u).key = ck from rfl, hc]
    have hcondneg : ¬((c.isPrivate && !(isChannelMember db c.id u)) = true) := by
      rcases hauth with h | h
      · rw [h]
        simp
      · rw [h]
        simp
    unfold chatJoin
    rw [if_neg hck]
    simp only [hget]
    rw [if_neg hcondneg]
    rfl

/-- Witness for C6: joining the fixture public channel emits the mapped
limit-100 history snapshot first. -/
theorem getRecentMessages_ordered_capped_joined_witness :
    (chatJoin dbBig "u1" "alice" "general").emits.head?
      = some ⟨Target.toSelf, SEvent.history "general"
          ((getRecentMessages (ensureChannelMember dbBig "cbig" "u1") "cbig"
              100 none).map (toHistItem "general" "alice"))⟩ :=
  (getRecentMessages_ordered_capped_joined dbBig "cbig" 100).2.2.2.2
    "u1" "alice" "general" chanBig (by decide) (by decide) (Or.inl rfl)

set_option maxRecDepth 4000 in
/-- C6 counterexample: with 101 messages in the channel, the most recent
message (id "m100", the unique maximum of created_at) is absent from the
limit-100 `getRecentMessages` result and from the `chat:join` history
snapshot, while the oldest ("m0") is present: the snapshot holds the
oldest 100 messages, not the most recent 100. -/
theorem history_snapshot_misses_most_recent :
    (∃ m ∈ dbBig.messages, m.id = "m100"
        ∧ ∀ m2 ∈ dbBig.messages, m2.created_at ≤ m.created_at)
      ∧ (∀ r ∈ getRecentMessages dbBig "cbig" 100 none, r.id ≠ "m100")
      ∧ (∃ r ∈ getRecentMessages dbBig "cbig" 100 none, r.id = "m0")
      ∧ (chatJoin dbBig "u1" "alice" "general").emits.head?
          = some ⟨Target.toSelf, SEvent.history "general"
              ((getRecentMessages (ensureChannelMember dbBig "cbig" "u1")
                  "cbig" 100 none).map (toHistItem "general" "alice"))⟩
      ∧ (∀ hi ∈ (getRecentMessages (ensureChannelMember dbBig "cbig" "u1")
            "cbig" 100 none).map (toHistItem "general" "alice"),
          hi.id ≠ "m100") := by
  refine ⟨?_, ?_, ?_, ?_, ?_⟩ <;> decide

end TaskChat
